import Mathlib

/-!
Shallow embedding of the journal-tracking web application.

The repository contains two route-handler implementations over the same
schema: `src/app.py` (SQLAlchemy models) and
`src/author_informatinons/app.py` (raw sqlite).  The embedding below
models the journal record store, the user store and the handlers
`submit`, `journal_detail`, `search`, `flag_journal`, `add_comment`,
`delete_journal` and `register`.  Timestamps (Python
`datetime.utcnow().isoformat()` strings, which compare chronologically)
are modelled as natural numbers; SQL NULL and Python `None` are
modelled as `Option`.
-/

set_option maxHeartbeats 1000000

/-- Numeric value of a list of decimal digit characters, most significant
first. -/
def digitsToNat (ds : List Char) : Nat :=
  ds.foldl (fun n c => 10 * n + (c.toNat - Char.toNat '0')) 0

/-- True when the list is a non-empty run of decimal digit characters. -/
def isDigits (ds : List Char) : Bool :=
  !ds.isEmpty && ds.all (fun c => c.isDigit)

/-- Model of the Python builtin `float(s)` (an external collaborator of the
code under verification), restricted to plain decimal literals: an optional
sign, then either a digit run or a dot with a digit run on at least one
side.  Returns `none` where `float` raises `ValueError`.  Exponents,
infinities, whitespace and underscores do not occur in the inputs this
development uses. -/
def pyFloat? (s : String) : Option Rat :=
  let p : Rat × List Char :=
    match s.toList with
    | '-' :: rest => (-1, rest)
    | '+' :: rest => (1, rest)
    | l => (1, l)
  match p.2.span (fun c => c != '.') with
  | (ip, []) =>
      if isDigits ip then some (p.1 * (digitsToNat ip : Rat)) else none
  | (ip, _dot :: fp) =>
      if (!ip.isEmpty || !fp.isEmpty) && ip.all (fun c => c.isDigit)
          && fp.all (fun c => c.isDigit) then
        some (p.1 * ((digitsToNat ip : Rat)
          + (digitsToNat fp : Rat) / ((10 : Rat) ^ fp.length)))
      else none

/-- Model of the Python builtin `int(s)` (external collaborator), restricted
to plain decimal literals: an optional sign then a digit run.  Returns
`none` where `int` raises `ValueError`. -/
def pyInt? (s : String) : Option Int :=
  match s.toList with
  | '-' :: rest => if isDigits rest then some (-(digitsToNat rest : Int)) else none
  | '+' :: rest => if isDigits rest then some ((digitsToNat rest : Int)) else none
  | l => if isDigits l then some ((digitsToNat l : Int)) else none

/-- src/app.py line 135: `float(form_data.get('impact_factor')) if
form_data.get('impact_factor') else None`.  An absent or empty (falsy)
field is stored as `None`; a present field is handed to `float`, whose
`ValueError` on a malformed value is not caught and aborts the request
(`Except.error`).  No sign check is performed. -/
def submitImpactFactor : Option String → Except Unit (Option Rat)
  | none => .ok none
  | some s =>
      if s = "" then .ok none
      else
        match pyFloat? s with
        | some v => .ok (some v)
        | none => .error ()

/-- src/app.py lines 138 and 140: `int(form_data.get(...)) if
form_data.get(...) else None`, shared shape of the word-count-limit and
reference-count-limit fields. -/
def submitIntField : Option String → Except Unit (Option Int)
  | none => .ok none
  | some s =>
      if s = "" then .ok none
      else
        match pyInt? s with
        | some v => .ok (some v)
        | none => .error ()

/-- src/app.py line 138: handling of the `word_count_limit` form field. -/
def submitWordCountLimit : Option String → Except Unit (Option Int) :=
  submitIntField

/-- src/app.py line 140: handling of the `reference_count_limit` form
field. -/
def submitReferenceCountLimit : Option String → Except Unit (Option Int) :=
  submitIntField

/-- src/author_informatinons/app.py line 148: every optional numeric form
field is inserted as `form_data.get(...) or None`: an absent or empty
value becomes NULL, and any other string is passed through to the INSERT
unchanged, with no parsing and no sign check. -/
def submitOptionalFieldRaw : Option String → Option String
  | none => none
  | some s => if s = "" then none else some s

/-- One entry of a record's `update_history` JSON list, as built in both
`submit` handlers: `{'timestamp': ..., 'author': ..., 'changes': ...}`.
(The spec calls the `changes` field the entry's description.) -/
structure HistoryEntry where
  timestamp : Nat
  author : String
  changes : String
deriving Repr, DecidableEq

/-- One entry of a record's `comments` JSON list, as built in
`add_comment`: `{'author': ..., 'text': ..., 'timestamp': ...}`. -/
structure Comment where
  author : String
  text : String
  timestamp : Nat
deriving Repr, DecidableEq

/-- A row of the `journals` table (columns of the CREATE TABLE in
src/author_informatinons/app.py line 34 and of the `Journal` model in
src/app.py).  Nullable columns are `Option`; the JSON-text columns
`update_history` and `comments` are modelled by the sequences they
serialize (the encoding round-trips losslessly), with `none` for NULL. -/
structure Journal where
  id : Nat
  journal_name : Option String
  issn : Option String
  publisher : Option String
  impact_factor : Option Rat
  formatting_requirements : Option String
  font_specifications : Option String
  word_count_limit : Option Int
  reference_style : Option String
  reference_count_limit : Option Int
  submission_url : Option String
  official_guidelines_url : Option String
  notes : Option String
  created_at : Nat
  last_updated : Nat
  update_history : Option (List HistoryEntry)
  flags_count : Int
  comments : Option (List Comment)
deriving Repr, DecidableEq

/-- The journal record store: the `journals` table plus its AUTOINCREMENT
counter (sqlite AUTOINCREMENT never reuses an id). -/
structure JournalDB where
  journals : List Journal
  nextId : Nat
deriving Repr, DecidableEq

/-- A row of the `users` table. -/
structure User where
  id : Nat
  username : String
  password_hash : String
  role : String
deriving Repr, DecidableEq

/-- The user store: the `users` table plus its AUTOINCREMENT counter. -/
structure UserDB where
  users : List User
  nextUserId : Nat
deriving Repr, DecidableEq

/-- The submission form payload handed to `submit`, after the uniform
`form_data.get(...) or None` treatment of the optional numeric fields
(whose raw-string handling is `submitOptionalFieldRaw` /
`submitImpactFactor` above); values carry the schema's column types. -/
structure SubmitForm where
  journal_name : Option String
  issn : Option String
  publisher : Option String
  impact_factor : Option Rat
  formatting_requirements : Option String
  font_specifications : Option String
  word_count_limit : Option Int
  reference_style : Option String
  reference_count_limit : Option Int
  submission_url : Option String
  official_guidelines_url : Option String
  notes : Option String
deriving Repr, DecidableEq

/-- Lookup of a journal row by id: `SELECT * FROM journals WHERE id = ?`
(src/author_informatinons/app.py line 120) / `Journal.query.get`
(src/app.py line 117). -/
def findJournal (db : JournalDB) (jid : Nat) : Option Journal :=
  db.journals.find? (fun j => j.id == jid)

/-- The `submit` POST handler (src/author_informatinons/app.py lines
145-149; src/app.py lines 126-148 behaves identically on these columns):
seeds `update_history` with the single entry
`{'timestamp': now, 'author': g.user.username, 'changes': 'Initial creation.'}`,
sets `created_at = last_updated = now`, `comments = json.dumps([])`, and
leaves `flags_count` to its column default 0. -/
def submit (db : JournalDB) (author : String) (now : Nat) (form : SubmitForm) :
    JournalDB :=
  { journals := db.journals ++ [{
      id := db.nextId
      journal_name := form.journal_name
      issn := form.issn
      publisher := form.publisher
      impact_factor := form.impact_factor
      formatting_requirements := form.formatting_requirements
      font_specifications := form.font_specifications
      word_count_limit := form.word_count_limit
      reference_style := form.reference_style
      reference_count_limit := form.reference_count_limit
      submission_url := form.submission_url
      official_guidelines_url := form.official_guidelines_url
      notes := form.notes
      created_at := now
      last_updated := now
      update_history := some [{ timestamp := now, author := author,
                                changes := "Initial creation." }]
      flags_count := 0
      comments := some [] }]
    nextId := db.nextId + 1 }

/-- The decoded view built by `journal_detail`: the raw row together with
`json.loads(row['update_history'] or '[]')` and
`json.loads(row['comments'] or '[]')`. -/
structure JournalDetail where
  row : Journal
  update_history : List HistoryEntry
  comments : List Comment
deriving Repr, DecidableEq

/-- The `journal_detail` handler (src/author_informatinons/app.py lines
119-127; src/app.py lines 116-121): 404 when the id is absent, otherwise
the row with its NULL-defaulting decoded history and comments. -/
def journal_detail (db : JournalDB) (jid : Nat) : Option JournalDetail :=
  match findJournal db jid with
  | none => none
  | some j => some { row := j, update_history := j.update_history.getD [],
                     comments := j.comments.getD [] }

/-- SQL `journal_name LIKE '%q%'` on a nullable column: NULL never
matches; otherwise an ASCII-case-insensitive substring test (sqlite LIKE
is case-insensitive for ASCII). -/
def likeContains (name : Option String) (pat : String) : Bool :=
  match name with
  | none => false
  | some s => ((s.toLower).splitOn (pat.toLower)).length ≥ 2

/-- SQL `impact_factor >= q` on the nullable REAL column: NULL never
satisfies the comparison. -/
def impactAtLeast (v : Option Rat) (q : Rat) : Bool :=
  match v with
  | none => false
  | some x => decide (q ≤ x)

/-- Descending `last_updated` order used by `ORDER BY last_updated DESC`. -/
def luGE (a b : Journal) : Prop :=
  b.last_updated ≤ a.last_updated

instance : DecidableRel luGE :=
  fun a b => Nat.decLe b.last_updated a.last_updated

instance : IsTotal Journal luGE :=
  ⟨fun a b => Nat.le_total b.last_updated a.last_updated⟩

instance : IsTrans Journal luGE :=
  ⟨fun _ _ _ hab hbc => Nat.le_trans hbc hab⟩

/-- The name half of the `search` WHERE clause (src/author_informatinons/
app.py line 134): the filter is added only when `query_name` is truthy. -/
def nameFiltered (db : JournalDB) (query_name : Option String) : List Journal :=
  match query_name with
  | none => db.journals
  | some qn =>
      if qn = "" then db.journals
      else db.journals.filter (fun j => likeContains j.journal_name qn)

/-- The impact-factor half of the `search` WHERE clause
(src/author_informatinons/app.py lines 135-138): a truthy `impact_factor`
query parameter is parsed with `float`; the filter is added only when the
parse succeeds and the value is `>= 0`, and a `ValueError` is swallowed
(`except ... : pass`), dropping the filter. -/
def ifFiltered (rows : List Journal) (query_if : Option String) : List Journal :=
  match query_if with
  | none => rows
  | some qs =>
      if qs = "" then rows
      else
        match pyFloat? qs with
        | none => rows
        | some q =>
            if 0 ≤ q then rows.filter (fun j => impactAtLeast j.impact_factor q)
            else rows

/-- The rows produced by the `search` handler before projection:
both filters combined, then `ORDER BY last_updated DESC`. -/
def searchRows (db : JournalDB) (query_name query_if : Option String) :
    List Journal :=
  List.insertionSort luGE (ifFiltered (nameFiltered db query_name) query_if)

/-- The `SELECT id, journal_name, impact_factor` projection used by
`search` and `journals_list`. -/
structure JournalSummary where
  id : Nat
  journal_name : Option String
  impact_factor : Option Rat
deriving Repr, DecidableEq

/-- Projection of a row to the search/list summary columns. -/
def summarize (j : Journal) : JournalSummary :=
  { id := j.id, journal_name := j.journal_name, impact_factor := j.impact_factor }

/-- The `search` handler (src/author_informatinons/app.py lines 129-140). -/
def search (db : JournalDB) (query_name query_if : Option String) :
    List JournalSummary :=
  (searchRows db query_name query_if).map summarize

/-- The `flag_journal` handler (src/author_informatinons/app.py lines
166-172): `UPDATE journals SET flags_count = flags_count + 1 WHERE id = ?`;
no other column is touched, and an absent id updates zero rows. -/
def flag_journal (db : JournalDB) (jid : Nat) : JournalDB :=
  { db with journals := db.journals.map (fun r =>
      if r.id == jid then { r with flags_count := r.flags_count + 1 } else r) }

/-- The `add_comment` handler (src/author_informatinons/app.py lines
174-186): a falsy `comment_text` (absent or empty) makes the handler skip
the store entirely; otherwise, when the id exists, the decoded comment
list gets `{'author': ..., 'text': ..., 'timestamp': now}` appended and
the row's `comments` and `last_updated` are updated together. -/
def add_comment (db : JournalDB) (author : String) (jid : Nat)
    (comment_text : Option String) (now : Nat) : JournalDB :=
  match comment_text with
  | none => db
  | some t =>
      if t = "" then db
      else
        match findJournal db jid with
        | none => db
        | some j =>
            { db with journals := db.journals.map (fun r =>
                if r.id == jid then
                  { r with
                    comments := some (j.comments.getD []
                      ++ [{ author := author, text := t, timestamp := now }])
                    last_updated := now }
                else r) }

/-- Outcome of a delete request, as surfaced at the boundary. -/
inductive DeleteResult where
  | permissionError
  | deleted
  | notFound
deriving Repr, DecidableEq

/-- The sqlite `delete_journal` handler (src/author_informatinons/app.py
lines 154-164): a non-admin requester is turned away before the store is
touched; an admin's `DELETE FROM journals WHERE id = ?` always reports
success, even when zero rows match. -/
def delete_journal (db : JournalDB) (requester : User) (jid : Nat) :
    DeleteResult × JournalDB :=
  if requester.role ≠ "admin" then (.permissionError, db)
  else (.deleted, { db with journals := db.journals.filter (fun j => !(j.id == jid)) })

/-- The SQLAlchemy `delete_journal` handler (src/app.py lines 153-163):
same role gate, but the row is first fetched with
`Journal.query.get_or_404`, which aborts with 404 when the id is absent. -/
def delete_journal_orm (db : JournalDB) (requester : User) (jid : Nat) :
    DeleteResult × JournalDB :=
  if requester.role ≠ "admin" then (.permissionError, db)
  else
    match findJournal db jid with
    | none => (.notFound, db)
    | some _ =>
        (.deleted, { db with journals := db.journals.filter (fun j => !(j.id == jid)) })

/-- Model of werkzeug's `generate_password_hash` (external collaborator):
an opaque one-way encoding of the password; only its determinism matters
here. -/
def generate_password_hash (password : String) : String :=
  "pbkdf2-sha256$" ++ password

/-- Lookup of a user row by username:
`SELECT * FROM users WHERE username = ?`. -/
def findUser (db : UserDB) (username : String) : Option User :=
  db.users.find? (fun u => u.username == username)

/-- Errors surfaced by `register`, per the spec's taxonomy. -/
inductive RegError where
  | validationError
  | conflictError
deriving Repr, DecidableEq

/-- The `register` POST handler (src/author_informatinons/app.py lines
71-86; src/app.py lines 85-101 is identical up to the ORM): an empty
username or password is a validation failure, an already-registered
username a conflict, each checked before any INSERT; on success the user
is stored with the hash of the password and the default role `user`. -/
def register (db : UserDB) (username password : String) :
    Except RegError UserDB :=
  if username = "" then .error .validationError
  else if password = "" then .error .validationError
  else if (findUser db username).isSome then .error .conflictError
  else .ok { users := db.users ++ [{
               id := db.nextUserId
               username := username
               password_hash := generate_password_hash password
               role := "user" }]
             nextUserId := db.nextUserId + 1 }

/-- One mutating-or-reading request against the journal store, used to
quantify over operation sequences.  `search` reads only. -/
inductive Op where
  | submit (author : String) (now : Nat) (form : SubmitForm)
  | add_comment (author : String) (jid : Nat) (comment_text : Option String) (now : Nat)
  | flag (jid : Nat)
  | delete (requester : User) (jid : Nat)
  | search (query_name query_if : Option String)
deriving Repr

/-- State transition of one request. -/
def applyOp (db : JournalDB) : Op → JournalDB
  | .submit a now f => submit db a now f
  | .add_comment a jid t now => add_comment db a jid t now
  | .flag jid => flag_journal db jid
  | .delete u jid => (delete_journal db u jid).2
  | .search _ _ => db

/-- The timestamp a request draws from `datetime.utcnow()`, when it draws
one. -/
def opNow : Op → Option Nat
  | .submit _ now _ => some now
  | .add_comment _ _ _ now => some now
  | .flag _ => none
  | .delete _ _ => none
  | .search _ _ => none

/-- The wall clock is monotone: along a request sequence, every drawn
timestamp is at least `t` and they are non-decreasing. -/
def timesMonotone : Nat → List Op → Prop
  | _, [] => True
  | t, op :: ops =>
      match opNow op with
      | none => timesMonotone t ops
      | some n => t ≤ n ∧ timesMonotone n ops

/-- AUTOINCREMENT invariant: every stored id is below the counter. -/
def IdBound (db : JournalDB) : Prop :=
  ∀ j ∈ db.journals, j.id < db.nextId

/-- The record-store invariant claimed by the spec:
`last_updated ≥ created_at` on every row. -/
def luInv (db : JournalDB) : Prop :=
  ∀ j ∈ db.journals, j.created_at ≤ j.last_updated

/-- Every row was created no later than time `t`. -/
def createdLE (db : JournalDB) (t : Nat) : Prop :=
  ∀ j ∈ db.journals, j.created_at ≤ t

theorem find?_append_of_none {α : Type} (p : α → Bool) (l₁ l₂ : List α)
    (h : l₁.find? p = none) : (l₁ ++ l₂).find? p = l₂.find? p := by
  induction l₁ with
  | nil => rfl
  | cons a l ih =>
      cases hpa : p a with
      | true => simp [List.find?, hpa] at h
      | false =>
          simp only [List.find?, hpa] at h
          simpa [List.find?, hpa] using ih h

theorem find?_append_of_some {α : Type} (p : α → Bool) (l₁ l₂ : List α) (a : α)
    (h : l₁.find? p = some a) : (l₁ ++ l₂).find? p = some a := by
  induction l₁ with
  | nil => simp [List.find?] at h
  | cons b l ih =>
      cases hpb : p b with
      | true =>
          simp only [List.find?, hpb] at h
          simpa [List.find?, hpb] using h
      | false =>
          simp only [List.find?, hpb] at h
          simpa [List.find?, hpb] using ih h

theorem find?_map_upd (l : List Journal) (tid jid : Nat) (f : Journal → Journal)
    (hf : ∀ j, (f j).id = j.id) :
    (l.map (fun r => if r.id == tid then f r else r)).find? (fun r => r.id == jid)
      = (l.find? (fun r => r.id == jid)).map (fun r => if r.id == tid then f r else r) := by
  induction l with
  | nil => rfl
  | cons a l ih =>
      have hid : (if a.id == tid then f a else a).id = a.id := by
        by_cases h : a.id == tid <;> simp [h, hf]
      cases hpa : (a.id == jid) with
      | true =>
          have h1 : ((if a.id == tid then f a else a).id == jid) = true := by
            rw [hid]; exact hpa
          simp only [List.map_cons, List.find?, h1, hpa]
          rfl
      | false =>
          have h1 : ((if a.id == tid then f a else a).id == jid) = false := by
            rw [hid]; exact hpa
          simp only [List.map_cons, List.find?, h1, hpa]
          exact ih

theorem filter_eq_self_of_find?_none {α : Type} (p : α → Bool) (l : List α)
    (h : l.find? p = none) : l.filter (fun a => !(p a)) = l := by
  induction l with
  | nil => rfl
  | cons a l ih =>
      cases hpa : p a with
      | true => simp [List.find?, hpa] at h
      | false =>
          simp only [List.find?, hpa] at h
          simp [List.filter, hpa, ih h]

theorem find?_filter_of_imp {α : Type} (p q : α → Bool) (l : List α)
    (h : ∀ a, p a = true → q a = true) :
    (l.filter q).find? p = l.find? p := by
  induction l with
  | nil => rfl
  | cons a l ih =>
      cases hqa : q a with
      | true =>
          cases hpa : p a with
          | true => simp [List.filter, List.find?, hqa, hpa]
          | false => simp [List.filter, List.find?, hqa, hpa, ih]
      | false =>
          have hpa : p a = false := by
            cases hpa : p a with
            | true => exact absurd (h a hpa) (by simp [hqa])
            | false => rfl
          simp [List.filter, List.find?, hqa, hpa, ih]

theorem find?_filter_neg {α : Type} (p : α → Bool) (l : List α) :
    (l.filter (fun a => !(p a))).find? p = none := by
  induction l with
  | nil => rfl
  | cons a l ih =>
      cases hpa : p a with
      | true => simp [List.filter, hpa, ih]
      | false => simp [List.filter, List.find?, hpa, ih]

theorem find?_filter_none_of_none {α : Type} (p q : α → Bool) (l : List α)
    (h : l.find? p = none) : (l.filter q).find? p = none := by
  induction l with
  | nil => rfl
  | cons a l ih =>
      cases hpa : p a with
      | true => simp [List.find?, hpa] at h
      | false =>
          simp only [List.find?, hpa] at h
          cases hqa : q a with
          | true => simp [List.filter, List.find?, hqa, hpa, ih h]
          | false => simp [List.filter, hqa, ih h]

theorem findJournal_submit_self (db : JournalDB) (author : String) (now : Nat)
    (form : SubmitForm) (hid : IdBound db) :
    findJournal (submit db author now form) db.nextId
      = some { id := db.nextId, journal_name := form.journal_name, issn := form.issn,
               publisher := form.publisher, impact_factor := form.impact_factor,
               formatting_requirements := form.formatting_requirements,
               font_specifications := form.font_specifications,
               word_count_limit := form.word_count_limit,
               reference_style := form.reference_style,
               reference_count_limit := form.reference_count_limit,
               submission_url := form.submission_url,
               official_guidelines_url := form.official_guidelines_url,
               notes := form.notes, created_at := now, last_updated := now,
               update_history := some [{ timestamp := now, author := author,
                                         changes := "Initial creation." }],
               flags_count := 0, comments := some [] } := by
  unfold findJournal submit
  have hnone : db.journals.find? (fun j => j.id == db.nextId) = none := by
    rw [List.find?_eq_none]
    intro j hj
    have hlt := hid j hj
    simp [Nat.ne_of_lt hlt]
  rw [find?_append_of_none _ _ _ hnone]
  simp [List.find?]

theorem findJournal_submit_old (db : JournalDB) (author : String) (now : Nat)
    (form : SubmitForm) (jid : Nat) (j : Journal)
    (h : findJournal db jid = some j) :
    findJournal (submit db author now form) jid = some j := by
  unfold findJournal submit
  exact find?_append_of_some _ _ _ _ h

theorem findJournal_flag (db : JournalDB) (jid : Nat) (j : Journal)
    (h : findJournal db jid = some j) :
    findJournal (flag_journal db jid) jid
      = some { j with flags_count := j.flags_count + 1 } := by
  unfold findJournal at h
  have hj : (j.id == jid) = true := by simpa using List.find?_some h
  unfold findJournal flag_journal
  rw [find?_map_upd db.journals jid jid
        (fun r => { r with flags_count := r.flags_count + 1 }) (fun r => rfl), h]
  simp [Option.map, hj]

theorem findJournal_flag_other (db : JournalDB) (tid jid : Nat) (j : Journal)
    (h : findJournal db jid = some j) (hne : j.id ≠ tid) :
    findJournal (flag_journal db tid) jid = some j := by
  unfold findJournal at h
  unfold findJournal flag_journal
  rw [find?_map_upd db.journals tid jid
        (fun r => { r with flags_count := r.flags_count + 1 }) (fun r => rfl), h]
  simp [Option.map, hne]

theorem add_comment_absent_text (db : JournalDB) (author : String) (jid : Nat)
    (now : Nat) : add_comment db author jid none now = db := rfl

theorem add_comment_empty_text (db : JournalDB) (author : String) (jid : Nat)
    (now : Nat) : add_comment db author jid (some "") now = db := rfl

theorem findJournal_add_comment (db : JournalDB) (author : String) (jid : Nat)
    (t : String) (now : Nat) (j : Journal)
    (h : findJournal db jid = some j) (ht : t ≠ "") :
    findJournal (add_comment db author jid (some t) now) jid
      = some { j with
               comments := some (j.comments.getD []
                 ++ [{ author := author, text := t, timestamp := now }])
               last_updated := now } := by
  have h2 : List.find? (fun r => r.id == jid) db.journals = some j := h
  have hj : (j.id == jid) = true := by simpa using List.find?_some h2
  simp only [add_comment, if_neg ht, h]
  unfold findJournal
  rw [find?_map_upd db.journals jid jid
        (fun r => { r with
          comments := some (j.comments.getD []
            ++ [{ author := author, text := t, timestamp := now }])
          last_updated := now }) (fun r => rfl), h2]
  simp [Option.map, hj]

theorem add_comment_nextId (db : JournalDB) (author : String) (jid : Nat)
    (t : Option String) (now : Nat) :
    (add_comment db author jid t now).nextId = db.nextId := by
  unfold add_comment
  cases t with
  | none => rfl
  | some s =>
      by_cases hs : s = ""
      · simp [hs]
      · simp only [if_neg hs]
        cases findJournal db jid <;> rfl

theorem delete_journal_nextId (db : JournalDB) (u : User) (jid : Nat) :
    (delete_journal db u jid).2.nextId = db.nextId := by
  unfold delete_journal
  by_cases hr : u.role ≠ "admin" <;> simp [hr]

theorem nextId_le_applyOp (db : JournalDB) (op : Op) :
    db.nextId ≤ (applyOp db op).nextId := by
  cases op with
  | submit a now f => exact Nat.le_succ _
  | add_comment a jid t now => rw [applyOp, add_comment_nextId]
  | flag jid => exact Nat.le_refl _
  | delete u jid => rw [applyOp, delete_journal_nextId]
  | search qn qi => exact Nat.le_refl _

theorem findJournal_map_upd (db : JournalDB) (tid jid : Nat) (f : Journal → Journal)
    (hf : ∀ j, (f j).id = j.id) :
    findJournal { journals := db.journals.map (fun r => if r.id == tid then f r else r), nextId := db.nextId } jid
      = (findJournal db jid).map (fun r => if r.id == tid then f r else r) := by
  unfold findJournal
  exact find?_map_upd _ _ _ f hf

theorem idBound_map_upd (db : JournalDB) (tid : Nat) (f : Journal → Journal)
    (hf : ∀ j, (f j).id = j.id) (h : IdBound db) :
    IdBound { journals := db.journals.map (fun r => if r.id == tid then f r else r), nextId := db.nextId } := by
  intro j hj
  rcases List.mem_map.mp hj with ⟨r, hr, rfl⟩
  by_cases hrt : (r.id == tid) = true
  · simpa [hrt, hf] using h r hr
  · simpa [hrt] using h r hr

theorem idBound_applyOp (db : JournalDB) (op : Op) (h : IdBound db) :
    IdBound (applyOp db op) := by
  cases op with
  | submit a now f =>
      intro j hj
      rcases List.mem_append.mp hj with hj | hj
      · exact Nat.lt_succ_of_lt (h j hj)
      · rcases List.mem_singleton.mp hj with rfl
        exact Nat.lt_succ_self _
  | add_comment a jid t now =>
      show IdBound (add_comment db a jid t now)
      cases t with
      | none => exact h
      | some s =>
          by_cases hs : s = ""
          · simpa [add_comment, hs] using h
          · cases hfind : findJournal db jid with
            | none => simpa [add_comment, if_neg hs, hfind] using h
            | some j =>
                simp only [add_comment, if_neg hs, hfind]
                exact idBound_map_upd db jid _ (fun r => rfl) h
  | flag jid => exact idBound_map_upd db jid _ (fun r => rfl) h
  | delete u jid =>
      show IdBound (delete_journal db u jid).2
      unfold delete_journal
      by_cases hr : u.role ≠ "admin"
      · simpa [hr] using h
      · simp only [hr, if_false]
        intro j hj
        exact h j (List.mem_of_mem_filter hj)
  | search qn qi => exact h

theorem findJournal_none_applyOp (db : JournalDB) (op : Op) (jid : Nat)
    (hlt : jid < db.nextId) (h : findJournal db jid = none) :
    findJournal (applyOp db op) jid = none := by
  cases op with
  | submit a now f =>
      show findJournal (submit db a now f) jid = none
      unfold findJournal submit
      unfold findJournal at h
      rw [find?_append_of_none _ _ _ h]
      have hne : (db.nextId == jid) = false := by
        simp [Nat.ne_of_gt hlt]
      simp [List.find?, hne]
  | add_comment a tid t now =>
      show findJournal (add_comment db a tid t now) jid = none
      cases t with
      | none => exact h
      | some s =>
          by_cases hs : s = ""
          · simpa [add_comment, hs] using h
          · cases hfind : findJournal db tid with
            | none => simpa [add_comment, if_neg hs, hfind] using h
            | some j =>
                simp only [add_comment, if_neg hs, hfind]
                rw [findJournal_map_upd db tid jid
                      (fun r => { r with
                        comments := some (j.comments.getD []
                          ++ [{ author := a, text := s, timestamp := now }])
                        last_updated := now }) (fun r => rfl), h]
                rfl
  | flag tid =>
      show findJournal (flag_journal db tid) jid = none
      unfold flag_journal
      rw [findJournal_map_upd db tid jid
            (fun r => { r with flags_count := r.flags_count + 1 }) (fun r => rfl), h]
      rfl
  | delete u tid =>
      show findJournal (delete_journal db u tid).2 jid = none
      unfold delete_journal
      by_cases hr : u.role ≠ "admin"
      · simpa [hr] using h
      · simp only [hr, if_false]
        unfold findJournal at h ⊢
        exact find?_filter_none_of_none _ _ _ h
  | search qn qi => exact h

theorem findJournal_none_foldl (ops : List Op) (db : JournalDB) (jid : Nat)
    (hlt : jid < db.nextId) (h : findJournal db jid = none) :
    findJournal (ops.foldl applyOp db) jid = none := by
  induction ops generalizing db with
  | nil => exact h
  | cons op ops ih =>
      rw [List.foldl_cons]
      exact ih _ (Nat.lt_of_lt_of_le hlt (nextId_le_applyOp db op))
        (findJournal_none_applyOp db op jid hlt h)

theorem flags_le_applyOp (db : JournalDB) (op : Op) (jid : Nat) (j₁ j₂ : Journal)
    (h1 : findJournal db jid = some j₁)
    (h2 : findJournal (applyOp db op) jid = some j₂) :
    j₁.flags_count ≤ j₂.flags_count := by
  cases op with
  | submit a now f =>
      rw [show applyOp db (Op.submit a now f) = submit db a now f from rfl,
          findJournal_submit_old db a now f jid j₁ h1] at h2
      cases h2
      exact Int.le_refl _
  | add_comment a tid t now =>
      have h2' : findJournal (add_comment db a tid t now) jid = some j₂ := h2
      cases t with
      | none =>
          obtain rfl : j₁ = j₂ := Option.some.inj (h1.symm.trans h2')
          exact Int.le_refl _
      | some s =>
          by_cases hs : s = ""
          · rw [hs, add_comment_empty_text, h1] at h2'
            cases h2'
            exact Int.le_refl _
          · cases hfind : findJournal db tid with
            | none =>
                simp only [add_comment, if_neg hs, hfind] at h2'
                rw [h1] at h2'
                cases h2'
                exact Int.le_refl _
            | some j =>
                simp only [add_comment, if_neg hs, hfind] at h2'
                rw [findJournal_map_upd db tid jid
                      (fun r => { r with
                        comments := some (j.comments.getD []
                          ++ [{ author := a, text := s, timestamp := now }])
                        last_updated := now }) (fun r => rfl), h1] at h2'
                simp only [Option.map_some'] at h2'
                by_cases ht : (j₁.id == tid) = true
                · rw [if_pos ht] at h2'
                  cases h2'
                  exact Int.le_refl _
                · rw [if_neg ht] at h2'
                  cases h2'
                  exact Int.le_refl _
  | flag tid =>
      have h2' : findJournal (flag_journal db tid) jid = some j₂ := h2
      unfold flag_journal at h2'
      rw [findJournal_map_upd db tid jid
            (fun r => { r with flags_count := r.flags_count + 1 }) (fun r => rfl), h1] at h2'
      simp only [Option.map_some'] at h2'
      by_cases ht : (j₁.id == tid) = true
      · rw [if_pos ht] at h2'
        cases h2'
        exact Int.le_of_lt (Int.lt_succ _)
      · rw [if_neg ht] at h2'
        cases h2'
        exact Int.le_refl _
  | delete u tid =>
      have h2' : findJournal (delete_journal db u tid).2 jid = some j₂ := h2
      unfold delete_journal at h2'
      by_cases hr : u.role ≠ "admin"
      · simp only [if_pos hr] at h2'
        cases h1.symm.trans h2'
        exact Int.le_refl _
      · simp only [hr, if_false] at h2'
        by_cases htj : tid = jid
        · subst htj
          have : findJournal { journals := db.journals.filter (fun j => !(j.id == tid)), nextId := db.nextId } tid = none := by
            unfold findJournal
            exact find?_filter_neg _ _
          rw [this] at h2'
          cases h2'
        · have heq : findJournal { journals := db.journals.filter (fun j => !(j.id == tid)), nextId := db.nextId } jid
              = findJournal db jid := by
            unfold findJournal
            exact find?_filter_of_imp _ _ _ (fun a ha => by
              have haj : a.id = jid := by simpa using ha
              have hat : a.id ≠ tid := by rw [haj]; exact fun hc => htj hc.symm
              simp [hat])
          rw [heq, h1] at h2'
          cases h2'
          exact Int.le_refl _
  | search qn qi =>
      have h2' : findJournal db jid = some j₂ := h2
      cases h1.symm.trans h2'
      exact Int.le_refl _

theorem flags_le_foldl (ops : List Op) (db : JournalDB) (jid : Nat) (j₁ j₂ : Journal)
    (hb : IdBound db) (h1 : findJournal db jid = some j₁)
    (h2 : findJournal (ops.foldl applyOp db) jid = some j₂) :
    j₁.flags_count ≤ j₂.flags_count := by
  induction ops generalizing db j₁ with
  | nil =>
      cases h1.symm.trans h2
      exact Int.le_refl _
  | cons op ops ih =>
      rw [List.foldl_cons] at h2
      cases hmid : findJournal (applyOp db op) jid with
      | some jm =>
          exact Int.le_trans (flags_le_applyOp db op jid j₁ jm h1 hmid)
            (ih (applyOp db op) jm (idBound_applyOp db op hb) hmid h2)
      | none =>
          have hjid : jid < (applyOp db op).nextId := by
            have hmem := List.mem_of_find?_eq_some h1
            have hid : j₁.id = jid := by simpa using List.find?_some h1
            calc jid = j₁.id := hid.symm
              _ < db.nextId := hb j₁ hmem
              _ ≤ (applyOp db op).nextId := nextId_le_applyOp db op
          have := findJournal_none_foldl ops (applyOp db op) jid hjid hmid
          rw [this] at h2
          cases h2

theorem luInv_createdLE_applyOp_timed (db : JournalDB) (op : Op) (t n : Nat)
    (h1 : luInv db) (h2 : createdLE db t) (hop : opNow op = some n) (htn : t ≤ n) :
    luInv (applyOp db op) ∧ createdLE (applyOp db op) n := by
  cases op with
  | submit a now f =>
      obtain rfl : now = n := Option.some.inj hop
      constructor
      · intro j hj
        rcases List.mem_append.mp hj with hj | hj
        · exact h1 j hj
        · rcases List.mem_singleton.mp hj with rfl
          exact Nat.le_refl _
      · intro j hj
        rcases List.mem_append.mp hj with hj | hj
        · exact Nat.le_trans (h2 j hj) htn
        · rcases List.mem_singleton.mp hj with rfl
          exact Nat.le_refl _
  | add_comment a jid txt now =>
      obtain rfl : now = n := Option.some.inj hop
      have hbase : luInv db ∧ createdLE db now :=
        ⟨h1, fun j hj => Nat.le_trans (h2 j hj) htn⟩
      show luInv (add_comment db a jid txt now) ∧ createdLE (add_comment db a jid txt now) now
      cases txt with
      | none => exact hbase
      | some s =>
          by_cases hs : s = ""
          · simpa [add_comment, hs] using hbase
          · cases hfind : findJournal db jid with
            | none => simpa [add_comment, if_neg hs, hfind] using hbase
            | some j =>
                simp only [add_comment, if_neg hs, hfind]
                constructor
                · intro r' hr'
                  rcases List.mem_map.mp hr' with ⟨r, hr, rfl⟩
                  by_cases hrt : (r.id == jid) = true
                  · simpa [hrt] using Nat.le_trans (h2 r hr) htn
                  · simpa [hrt] using h1 r hr
                · intro r' hr'
                  rcases List.mem_map.mp hr' with ⟨r, hr, rfl⟩
                  by_cases hrt : (r.id == jid) = true
                  · simpa [hrt] using Nat.le_trans (h2 r hr) htn
                  · simpa [hrt] using Nat.le_trans (h2 r hr) htn
  | flag jid => cases hop
  | delete u jid => cases hop
  | search qn qi => cases hop

theorem luInv_createdLE_applyOp_untimed (db : JournalDB) (op : Op) (t : Nat)
    (h1 : luInv db) (h2 : createdLE db t) (hop : opNow op = none) :
    luInv (applyOp db op) ∧ createdLE (applyOp db op) t := by
  cases op with
  | submit a now f => cases hop
  | add_comment a jid txt now => cases hop
  | flag jid =>
      constructor
      · intro r' hr'
        rcases List.mem_map.mp hr' with ⟨r, hr, rfl⟩
        by_cases hrt : (r.id == jid) = true
        · simpa [hrt] using h1 r hr
        · simpa [hrt] using h1 r hr
      · intro r' hr'
        rcases List.mem_map.mp hr' with ⟨r, hr, rfl⟩
        by_cases hrt : (r.id == jid) = true
        · simpa [hrt] using h2 r hr
        · simpa [hrt] using h2 r hr
  | delete u jid =>
      show luInv (delete_journal db u jid).2 ∧ createdLE (delete_journal db u jid).2 t
      unfold delete_journal
      by_cases hr : u.role ≠ "admin"
      · simpa [hr] using ⟨h1, h2⟩
      · simp only [hr, if_false]
        exact ⟨fun j hj => h1 j (List.mem_of_mem_filter hj),
               fun j hj => h2 j (List.mem_of_mem_filter hj)⟩
  | search qn qi => exact ⟨h1, h2⟩

theorem luInv_foldl (ops : List Op) (db : JournalDB) (t : Nat)
    (h1 : luInv db) (h2 : createdLE db t) (hm : timesMonotone t ops) :
    luInv (ops.foldl applyOp db) := by
  induction ops generalizing db t with
  | nil => exact h1
  | cons op ops ih =>
      rw [List.foldl_cons]
      cases hop : opNow op with
      | some n =>
          have hm' : t ≤ n ∧ timesMonotone n ops := by
            simpa [timesMonotone, hop] using hm
          obtain ⟨g1, g2⟩ := luInv_createdLE_applyOp_timed db op t n h1 h2 hop hm'.1
          exact ih (applyOp db op) n g1 g2 hm'.2
      | none =>
          have hm' : timesMonotone t ops := by
            simpa [timesMonotone, hop] using hm
          obtain ⟨g1, g2⟩ := luInv_createdLE_applyOp_untimed db op t h1 h2 hop
          exact ih (applyOp db op) t g1 g2 hm'

theorem findJournal_flag_iterate (db : JournalDB) (jid : Nat) (j : Journal) (n : Nat)
    (h : findJournal db jid = some j) :
    findJournal ((fun d => flag_journal d jid)^[n] db) jid
      = some { j with flags_count := j.flags_count + (n : Int) } := by
  induction n generalizing db j with
  | zero => simpa using h
  | succ n ih =>
      rw [Function.iterate_succ_apply]
      have h2 := ih (flag_journal db jid) _ (findJournal_flag db jid j h)
      rw [h2]
      have harith : j.flags_count + 1 + (n : Int) = j.flags_count + ((n : Int) + 1) := by
        ring
      simp only [Nat.cast_add, Nat.cast_one]
      rw [harith]

theorem add_comment_foldl (calls : List (String × String × Nat)) (db : JournalDB)
    (jid : Nat) (j : Journal) (h : findJournal db jid = some j)
    (hne : ∀ c ∈ calls, c.2.1 ≠ "") :
    ∃ j', findJournal (calls.foldl
        (fun d c => add_comment d c.1 jid (some c.2.1) c.2.2) db) jid = some j'
      ∧ j'.comments.getD [] = j.comments.getD []
          ++ calls.map (fun c => { author := c.1, text := c.2.1, timestamp := c.2.2 : Comment })
      ∧ j'.last_updated = (calls.map (fun c => c.2.2)).getLastD j.last_updated := by
  induction calls generalizing db j with
  | nil => exact ⟨j, h, by simp, by simp⟩
  | cons c cs ih =>
      have hc : c.2.1 ≠ "" := hne c (List.mem_cons_self _ _)
      have h1 := findJournal_add_comment db c.1 jid c.2.1 c.2.2 j h hc
      obtain ⟨j', hfind, hcom, hlu⟩ := ih (add_comment db c.1 jid (some c.2.1) c.2.2) _ h1
        (fun d hd => hne d (List.mem_cons_of_mem _ hd))
      refine ⟨j', by simpa using hfind, ?_, ?_⟩
      · rw [hcom]
        simp [List.append_assoc]
      · rw [hlu, List.map_cons, List.getLastD_cons]

theorem register_ok_elim (db db' : UserDB) (u p : String)
    (h : register db u p = .ok db') :
    u ≠ "" ∧ findUser db u = none ∧
    db' = { users := db.users ++
              [{ id := db.nextUserId
                 username := u
                 password_hash := generate_password_hash p
                 role := "user" }]
            nextUserId := db.nextUserId + 1 } := by
  unfold register at h
  by_cases hu : u = ""
  · rw [if_pos hu] at h; cases h
  · rw [if_neg hu] at h
    by_cases hp : p = ""
    · rw [if_pos hp] at h; cases h
    · rw [if_neg hp] at h
      by_cases hf : (findUser db u).isSome
      · rw [if_pos hf] at h; cases h
      · rw [if_neg hf] at h
        cases h
        exact ⟨hu, Option.not_isSome_iff_eq_none.mp hf, rfl⟩

theorem findUser_register_self (db db' : UserDB) (u p : String)
    (h : register db u p = .ok db') :
    findUser db' u = some { id := db.nextUserId
                            username := u
                            password_hash := generate_password_hash p
                            role := "user" } := by
  obtain ⟨hu, hnone, rfl⟩ := register_ok_elim db db' u p h
  unfold findUser at hnone ⊢
  rw [find?_append_of_none _ _ _ hnone]
  simp [List.find?]

/-- A freshly initialized journal store (empty table, first AUTOINCREMENT
id 1). -/
def emptyJournalDB : JournalDB :=
  { journals := [], nextId := 1 }

/-- The spec §8 example form payload:
`create({journal_name: "Cell", official_guidelines_url: "http://x"})`. -/
def formW : SubmitForm :=
  { journal_name := some "Cell"
    issn := none
    publisher := none
    impact_factor := none
    formatting_requirements := none
    font_specifications := none
    word_count_limit := none
    reference_style := none
    reference_count_limit := none
    submission_url := none
    official_guidelines_url := some "http://x"
    notes := none }

/-- The store after Alice submits `formW` at time 5 into the empty store. -/
def dbW : JournalDB :=
  submit emptyJournalDB "alice" 5 formW

/-- The row created by that submission. -/
def jW : Journal :=
  { id := 1
    journal_name := some "Cell"
    issn := none
    publisher := none
    impact_factor := none
    formatting_requirements := none
    font_specifications := none
    word_count_limit := none
    reference_style := none
    reference_count_limit := none
    submission_url := none
    official_guidelines_url := some "http://x"
    notes := none
    created_at := 5
    last_updated := 5
    update_history := some [{ timestamp := 5, author := "alice", changes := "Initial creation." }]
    flags_count := 0
    comments := some [] }

/-- The seeded admin account (init_db). -/
def adminW : User :=
  { id := 1, username := "admin", password_hash := generate_password_hash "admin123", role := "admin" }

/-- A seeded non-admin account (init_db). -/
def userW : User :=
  { id := 2, username := "user1", password_hash := generate_password_hash "user123", role := "user" }

/-- A legacy row whose serialized `update_history` and `comments` columns
are NULL. -/
def jNullW : Journal :=
  { jW with id := 3, update_history := none, comments := none }

/-- A store containing only the NULL-columns row. -/
def dbNullW : JournalDB :=
  { journals := [jNullW], nextId := 4 }

/-- Claim C1, counterexample: a present negative optional numeric field is
accepted by the create path instead of being validated as non-negative —
src/app.py stores `float("-2") = -2` (and `int("-5") = -5`), so the claimed
validation does not exist. -/
theorem c1_counterexample :
    ¬ ((∀ s : String, ∀ q : Rat, submitImpactFactor (some s) = .ok (some q) → 0 ≤ q) ∧
       (∀ s : String, ∀ n : Int, submitWordCountLimit (some s) = .ok (some n) → 0 ≤ n) ∧
       (∀ s : String, ∀ n : Int, submitReferenceCountLimit (some s) = .ok (some n) → 0 ≤ n)) := by
  intro h
  have hparse : submitImpactFactor (some "-2") = .ok (some (-2)) := by
    show Except.ok (some ((-1 : Rat) * ((digitsToNat ['2'] : Nat) : Rat)))
      = Except.ok (some (-2))
    norm_num [digitsToNat, show Char.toNat '2' = 50 from rfl,
      show Char.toNat '0' = 48 from rfl]
  have h2 := h.1 "-2" (-2) hparse
  norm_num at h2

/-- Claim C1, amended: each absent (or empty, hence falsy) optional numeric
field is stored as unset (None), not zero, in both implementations; but a
present value is not validated to be non-negative — src/app.py parses it
with `float`/`int`, accepting negatives and aborting the request on a
malformed value, and the sqlite implementation stores the present raw
string without any parsing. -/
theorem c1_amended :
    submitImpactFactor none = .ok none ∧
    submitImpactFactor (some "") = .ok none ∧
    submitWordCountLimit none = .ok none ∧
    submitWordCountLimit (some "") = .ok none ∧
    submitReferenceCountLimit none = .ok none ∧
    submitReferenceCountLimit (some "") = .ok none ∧
    submitOptionalFieldRaw none = none ∧
    submitOptionalFieldRaw (some "") = none ∧
    submitImpactFactor (some "-2.5") = .ok (some ((-5 : Rat) / 2)) ∧
    submitWordCountLimit (some "-5") = .ok (some (-5)) ∧
    submitReferenceCountLimit (some "-3") = .ok (some (-3)) ∧
    submitImpactFactor (some "abc") = .error () ∧
    submitOptionalFieldRaw (some "-2.5") = some "-2.5" := by
  refine ⟨rfl, rfl, rfl, rfl, rfl, rfl, rfl, rfl, ?_, rfl, rfl, rfl, rfl⟩
  show Except.ok (some ((-1 : Rat) * (((digitsToNat ['2'] : Nat) : Rat)
    + ((digitsToNat ['5'] : Nat) : Rat) / ((10 : Rat) ^ (1 : Nat)))))
      = Except.ok (some ((-5 : Rat) / 2))
  norm_num [digitsToNat, show Char.toNat '2' = 50 from rfl,
    show Char.toNat '0' = 48 from rfl, show Char.toNat '5' = 53 from rfl]

/-- Claim C2: on any store satisfying the AUTOINCREMENT id bound, `submit`
(create) followed immediately by `journal_detail` (get) of the new id
returns a record whose history is exactly the one entry
`{timestamp := now, author, changes := "Initial creation."}` (the `changes`
field is what the spec calls the entry's description), authored by the
submitting user and timestamped at creation time, whose comments are empty
and whose `flags_count` is 0. -/
theorem c2_create_then_get (db : JournalDB) (author : String) (now : Nat)
    (form : SubmitForm) (hid : IdBound db) :
    ∃ d : JournalDetail,
      journal_detail (submit db author now form) db.nextId = some d ∧
      d.update_history = [{ timestamp := now, author := author, changes := "Initial creation." }] ∧
      d.comments = [] ∧
      d.row.flags_count = 0 ∧
      d.row.created_at = now ∧
      d.row.last_updated = now := by
  unfold journal_detail
  rw [findJournal_submit_self db author now form hid]
  exact ⟨_, rfl, rfl, rfl, rfl, rfl, rfl⟩

/-- Witness for C2 at the spec §8 example: Alice submits the "Cell" form at
time 5 into the empty store. -/
theorem c2_witness :
    ∃ d : JournalDetail,
      journal_detail (submit emptyJournalDB "alice" 5 formW) 1 = some d ∧
      d.update_history = [{ timestamp := 5, author := "alice", changes := "Initial creation." }] ∧
      d.comments = [] ∧
      d.row.flags_count = 0 ∧
      d.row.created_at = 5 ∧
      d.row.last_updated = 5 :=
  c2_create_then_get emptyJournalDB "alice" 5 formW
    (fun j hj => absurd hj (List.not_mem_nil j))

/-- Claim C3: an `add_comment` with absent or empty text is a no-op (not an
error); on an existing record with non-empty text it appends exactly one
entry `{timestamp := now, author, text}` at the end of `comments`
(preserving all prior entries and their order) and sets
`last_updated := now`, no other field changing; and a sequence of N such
calls yields the N entries appended in call order (so `comments` has
length N when it started empty) with `last_updated` equal to the timestamp
of the last call. -/
theorem c3_add_comment_spec :
    (∀ (db : JournalDB) (author : String) (jid now : Nat),
        add_comment db author jid none now = db ∧
        add_comment db author jid (some "") now = db) ∧
    (∀ (db : JournalDB) (author : String) (jid : Nat) (t : String) (now : Nat) (j : Journal),
        findJournal db jid = some j → t ≠ "" →
        findJournal (add_comment db author jid (some t) now) jid
          = some { j with
                   comments := some (j.comments.getD []
                     ++ [{ author := author, text := t, timestamp := now }])
                   last_updated := now }) ∧
    (∀ (calls : List (String × String × Nat)) (db : JournalDB) (jid : Nat) (j : Journal),
        findJournal db jid = some j → (∀ c ∈ calls, c.2.1 ≠ "") →
        ∃ j', findJournal (calls.foldl
            (fun d c => add_comment d c.1 jid (some c.2.1) c.2.2) db) jid = some j'
          ∧ j'.comments.getD [] = j.comments.getD []
              ++ calls.map (fun c => { author := c.1, text := c.2.1, timestamp := c.2.2 : Comment })
          ∧ (j.comments = some [] → (j'.comments.getD []).length = calls.length)
          ∧ j'.last_updated = (calls.map (fun c => c.2.2)).getLastD j.last_updated) := by
  refine ⟨fun db a jid now => ⟨rfl, rfl⟩,
          fun db a jid t now j h ht => findJournal_add_comment db a jid t now j h ht,
          fun calls db jid j h hne => ?_⟩
  obtain ⟨j', hf, hc, hl⟩ := add_comment_foldl calls db jid j h hne
  refine ⟨j', hf, hc, fun hjc => ?_, hl⟩
  rw [hc, hjc]
  simp

/-- Witness for C3: Bob comments "hi" at time 9 on the record Alice created
at time 5. -/
theorem c3_witness :
    findJournal (add_comment dbW "bob" 1 (some "hi") 9) 1
      = some { jW with
               comments := some [{ author := "bob", text := "hi", timestamp := 9 }]
               last_updated := 9 } :=
  c3_add_comment_spec.2.1 dbW "bob" 1 "hi" 9 jW rfl (by decide)

/-- Claim C4: on an existing record, `flag_journal` replaces the row by the
same row with `flags_count` incremented by exactly 1 (in particular
`last_updated` is untouched); N iterated flags add exactly N; and across
any sequence of operations (submit, comment, flag, delete, search) on a
store satisfying the AUTOINCREMENT id bound, a record's `flags_count`
never decreases. -/
theorem c4_flag_spec (db : JournalDB) (jid : Nat) (j : Journal)
    (h : findJournal db jid = some j) :
    findJournal (flag_journal db jid) jid
      = some { j with flags_count := j.flags_count + 1 } ∧
    (∀ n : Nat, findJournal ((fun d => flag_journal d jid)^[n] db) jid
      = some { j with flags_count := j.flags_count + (n : Int) }) ∧
    (∀ (d : JournalDB) (tid : Nat) (j₁ j₂ : Journal) (ops : List Op),
        IdBound d → findJournal d tid = some j₁ →
        findJournal (ops.foldl applyOp d) tid = some j₂ →
        j₁.flags_count ≤ j₂.flags_count) :=
  ⟨findJournal_flag db jid j h,
   fun n => findJournal_flag_iterate db jid j n h,
   fun d tid j₁ j₂ ops hb h1 h2 => flags_le_foldl ops d tid j₁ j₂ hb h1 h2⟩

/-- Witness for C4: flagging the record Alice created increments its count
from 0 to 1. -/
theorem c4_witness :
    findJournal (flag_journal dbW 1) 1 = some { jW with flags_count := 1 } :=
  (c4_flag_spec dbW 1 jW rfl).1

/-- Claim C5: in both implementations, a delete request by a requester
whose role is not admin returns PermissionError and leaves the store
untouched, so the record remains retrievable via get afterward with all
fields unchanged. -/
theorem c5_delete_nonadmin (db : JournalDB) (u : User) (jid : Nat) (j : Journal)
    (hrole : u.role ≠ "admin") (hfind : findJournal db jid = some j) :
    delete_journal db u jid = (.permissionError, db) ∧
    delete_journal_orm db u jid = (.permissionError, db) ∧
    findJournal (delete_journal db u jid).2 jid = some j ∧
    findJournal (delete_journal_orm db u jid).2 jid = some j := by
  have h1 : delete_journal db u jid = (.permissionError, db) := by
    unfold delete_journal
    rw [if_pos hrole]
  have h2 : delete_journal_orm db u jid = (.permissionError, db) := by
    unfold delete_journal_orm
    rw [if_pos hrole]
  exact ⟨h1, h2, by rw [h1]; exact hfind, by rw [h2]; exact hfind⟩

/-- Witness for C5: the seeded non-admin user fails to delete Alice's
record, which stays retrievable. -/
theorem c5_witness :
    delete_journal dbW userW 1 = (DeleteResult.permissionError, dbW) ∧
    delete_journal_orm dbW userW 1 = (DeleteResult.permissionError, dbW) ∧
    findJournal (delete_journal dbW userW 1).2 1 = some jW ∧
    findJournal (delete_journal_orm dbW userW 1).2 1 = some jW :=
  c5_delete_nonadmin dbW userW 1 jW (by decide) rfl

/-- Claim C6, counterexample: in the sqlite implementation, an admin delete
of an id absent from the store does not fail with NotFoundError — the
handler reports success (`DELETE` matching zero rows). -/
theorem c6_counterexample :
    adminW.role = "admin" ∧ findJournal emptyJournalDB 1 = none ∧
    (delete_journal emptyJournalDB adminW 1).1 ≠ DeleteResult.notFound :=
  ⟨rfl, rfl, by decide⟩

/-- Claim C6, amended: for an admin requester and an id absent from the
store, the SQLAlchemy delete fails with NotFoundError leaving the store
unchanged, while the sqlite delete reports success, also leaving the store
unchanged. -/
theorem c6_amended (db : JournalDB) (u : User) (jid : Nat)
    (hrole : u.role = "admin") (habs : findJournal db jid = none) :
    delete_journal_orm db u jid = (.notFound, db) ∧
    delete_journal db u jid = (.deleted, db) := by
  have hr : ¬(u.role ≠ "admin") := fun hc => hc hrole
  constructor
  · unfold delete_journal_orm
    rw [if_neg hr, habs]
  · unfold delete_journal
    rw [if_neg hr]
    have hfilter : db.journals.filter (fun j => !(j.id == jid)) = db.journals := by
      unfold findJournal at habs
      exact filter_eq_self_of_find?_none _ _ habs
    rw [hfilter]

/-- Witness for C6 amended: the seeded admin deletes id 1 from the empty
store. -/
theorem c6_witness :
    delete_journal_orm emptyJournalDB adminW 1 = (DeleteResult.notFound, emptyJournalDB) ∧
    delete_journal emptyJournalDB adminW 1 = (DeleteResult.deleted, emptyJournalDB) :=
  c6_amended emptyJournalDB adminW 1 rfl rfl

/-- Claim C7: for every store contents and any name filter, a search whose
impact-factor parameter is malformed (float() raises) or parses negative
silently drops that filter — it returns exactly the result sequence of the
same search without the impact-factor filter — and the rows are ordered by
`last_updated` descending. -/
theorem c7_search_ignores_bad_filter (db : JournalDB) (query_name : Option String)
    (qs : String)
    (h : pyFloat? qs = none ∨ ∃ q : Rat, pyFloat? qs = some q ∧ q < 0) :
    search db query_name (some qs) = search db query_name none ∧
    List.Sorted luGE (searchRows db query_name (some qs)) := by
  have hrows : searchRows db query_name (some qs) = searchRows db query_name none := by
    unfold searchRows
    congr 1
    by_cases hq : qs = ""
    · simp only [ifFiltered, if_pos hq]
    · simp only [ifFiltered, if_neg hq]
      rcases h with h | ⟨q, hq', hlt⟩
      · rw [h]
      · simp only [hq', if_neg (not_le.mpr hlt)]
  constructor
  · unfold search
    rw [hrows]
  · unfold searchRows
    exact List.sorted_insertionSort luGE _

/-- Witness for C7: the spec §8 case `search(min_impact_factor=-1)` on the
store holding Alice's record behaves as the unfiltered search. -/
theorem c7_witness :
    search dbW none (some "-1") = search dbW none none ∧
    List.Sorted luGE (searchRows dbW none (some "-1")) :=
  c7_search_ignores_bad_filter dbW none "-1"
    (Or.inr ⟨-1, by
      show some ((-1 : Rat) * ((digitsToNat ['1'] : Nat) : Rat)) = some (-1)
      norm_num [digitsToNat, show Char.toNat '1' = 49 from rfl,
        show Char.toNat '0' = 48 from rfl], by norm_num⟩)

/-- Claim C8: if a registration for username `u` succeeds, a second
registration attempt for the same `u` (with a non-empty password, so that
the earlier empty-password ValidationError check does not fire first)
fails with ConflictError, and the first user's stored record — password
hash and default role `user` — is unaffected, the store not being touched
on the failed attempt. -/
theorem c8_register_conflict (db db' : UserDB) (u p p' : String)
    (h : register db u p = .ok db') (hp' : p' ≠ "") :
    register db' u p' = .error .conflictError ∧
    findUser db' u = some { id := db.nextUserId
                            username := u
                            password_hash := generate_password_hash p
                            role := "user" } := by
  have hfind := findUser_register_self db db' u p h
  obtain ⟨hu, hnone, hdb⟩ := register_ok_elim db db' u p h
  constructor
  · unfold register
    rw [if_neg hu, if_neg hp', if_pos (by rw [hfind]; rfl)]
  · exact hfind

/-- Empty user store (before any registration). -/
def userDB0 : UserDB :=
  { users := [], nextUserId := 1 }

/-- The user store after Alice registers with password "pw". -/
def regDB1 : UserDB :=
  { users := [{ id := 1
                username := "alice"
                password_hash := generate_password_hash "pw"
                role := "user" }]
    nextUserId := 2 }

/-- Witness for C8: Alice registers, then a second "alice" registration is
rejected with a conflict and her record is intact. -/
theorem c8_witness :
    register regDB1 "alice" "pw2" = .error .conflictError ∧
    findUser regDB1 "alice" = some { id := 1
                                     username := "alice"
                                     password_hash := generate_password_hash "pw"
                                     role := "user" } :=
  c8_register_conflict userDB0 regDB1 "alice" "pw" "pw2" rfl (by decide)

/-- Claim C9: `last_updated ≥ created_at` holds on every record of every
store reachable by any sequence of operations (submit/create, add_comment,
flag, delete, search) executed with a monotone wall clock, starting from
any store satisfying the invariant whose records were created no later
than the clock — in particular on every state reachable from a create. -/
theorem c9_last_updated_ge_created (ops : List Op) (db : JournalDB) (t : Nat)
    (h1 : luInv db) (h2 : createdLE db t) (hm : timesMonotone t ops) :
    luInv (ops.foldl applyOp db) :=
  luInv_foldl ops db t h1 h2 hm

/-- A concrete request sequence: create, comment, flag, then a search. -/
def opsW : List Op :=
  [Op.submit "alice" 5 formW, Op.add_comment "bob" 1 (some "hi") 7, Op.flag 1,
   Op.search (some "Cell") (some "-1")]

/-- Witness for C9: the invariant holds after running `opsW` from the empty
store with a clock starting at 5. -/
theorem c9_witness : luInv (opsW.foldl applyOp emptyJournalDB) :=
  c9_last_updated_ge_created opsW emptyJournalDB 5
    (fun j hj => absurd hj (List.not_mem_nil j))
    (fun j hj => absurd hj (List.not_mem_nil j))
    ⟨by decide, by decide, trivial⟩

/-- Claim C10: for every stored record, the get/detail operation succeeds,
and when the serialized `update_history` or `comments` column is NULL the
decoded view presents that field as the empty sequence rather than failing
during decoding. -/
theorem c10_null_fields_decode (db : JournalDB) (jid : Nat) (j : Journal)
    (hfind : findJournal db jid = some j) :
    ∃ d : JournalDetail, journal_detail db jid = some d ∧ d.row = j ∧
      (j.update_history = none → d.update_history = []) ∧
      (j.comments = none → d.comments = []) := by
  unfold journal_detail
  rw [hfind]
  exact ⟨_, rfl, rfl, fun h => by simp [h], fun h => by simp [h]⟩

/-- Witness for C10: a legacy row with NULL history and comments decodes to
empty lists. -/
theorem c10_witness :
    ∃ d : JournalDetail, journal_detail dbNullW 3 = some d ∧ d.row = jNullW ∧
      (jNullW.update_history = none → d.update_history = []) ∧
      (jNullW.comments = none → d.comments = []) :=
  c10_null_fields_decode dbNullW 3 jNullW rfl
